import Mathlib

/-!
# ADQ Pingora — verification of the request-dispatch core

Shallow embedding of the request-dispatch core of the ADQ Pingora reverse
proxy (token-bucket rate limiter, health-aware round-robin load balancer,
circuit breaker, dispatch pipeline with retries) together with the NPM
install/uninstall and requirements-check scripts shipped under `scripts/`.

The Rust implementation of the dispatch core is not part of the packaged
sources (the package ships documentation and installation tooling), so the
core components are modelled from the specification and from the behaviour
documented in `docs/rate-limiting.md`, `docs/load-balancing.md` and
`docs/configuration.md`.  The Node install scripts are embedded from their
sources directly.
-/

namespace AdqPingora

/-! ## Token-bucket rate limiter -/

/-- Admission outcome of the rate limiter. -/
inductive AdmitResult
  | Allowed
  | Rejected
deriving DecidableEq, Repr

/-- Modelled from the spec: the Rust rate-limiter implementation
(`src/rate_limit/` of the proxy) is missing from the packaged sources.
§3 "Rate Limit Bucket": sustained rate R (tokens/second), burst capacity B
(maximum tokens), real-valued current token count, last-refill timestamp.
Token counts and timestamps are rationals. -/
structure Bucket where
  rate : ℚ
  burst : ℚ
  tokens : ℚ
  lastRefill : ℚ
deriving DecidableEq, Repr

/-- Modelled from the spec (§4.1): "refill tokens by `elapsed_seconds * R`,
capped at B, based on the time since last refill". -/
def refillTokens (b : Bucket) (now : ℚ) : ℚ :=
  min b.burst (b.tokens + (now - b.lastRefill) * b.rate)

/-- Modelled from the spec (§4.1): `admit(key) -> Allowed | Rejected`.
Refill first; if at least one token is available, subtract one and allow;
otherwise reject, leaving the (refilled) token count unchanged. -/
def admitRequest (b : Bucket) (now : ℚ) : AdmitResult × Bucket :=
  let refilled := refillTokens b now
  if 1 ≤ refilled then
    (AdmitResult.Allowed, { b with tokens := refilled - 1, lastRefill := now })
  else
    (AdmitResult.Rejected, { b with tokens := refilled, lastRefill := now })

/-- Tokens consumed by an admission outcome: one per allowed request. -/
def admitCost : AdmitResult → ℚ
  | AdmitResult.Allowed => 1
  | AdmitResult.Rejected => 0

/-- Final bucket state after a sequence of admission calls. -/
def admitRun : Bucket → List ℚ → Bucket
  | b, [] => b
  | b, t :: ts => admitRun (admitRequest b t).2 ts

/-- The trace of a sequence of admission calls: each call time paired with
its outcome. -/
def admitTrace : Bucket → List ℚ → List (ℚ × AdmitResult)
  | _, [] => []
  | b, t :: ts =>
    let r := admitRequest b t
    (t, r.1) :: admitTrace r.2 ts

/-- Number of allowed outcomes in a trace whose call time lies in the
sliding window `[s, s + T]`. -/
def windowCount (s T : ℚ) (tr : List (ℚ × AdmitResult)) : ℕ :=
  tr.countP fun p =>
    decide (s ≤ p.1) && decide (p.1 ≤ s + T) && decide (p.2 = AdmitResult.Allowed)

/-- Number of allowed outcomes in a trace whose call time is at most `hi`. -/
def upToCount (hi : ℚ) (tr : List (ℚ × AdmitResult)) : ℕ :=
  tr.countP fun p => decide (p.1 ≤ hi) && decide (p.2 = AdmitResult.Allowed)

/-- Potential of a bucket at a future instant `u`: current tokens plus
everything the refill could add by time `u` if the cap never bound. -/
def avail (b : Bucket) (u : ℚ) : ℚ :=
  b.tokens + b.rate * (u - b.lastRefill)

/-! ## Health status and circuit-breaker state -/

/-- Health verdict published by the health checker (§3 "Backend Server"). -/
inductive Health
  | Healthy
  | Unhealthy
deriving DecidableEq, Repr

/-- Circuit-breaker states (§4.3). -/
inductive CBState
  | Closed
  | Open
  | HalfOpen
deriving DecidableEq, Repr

/-- Modelled from the spec (§4.3 / `docs/configuration.md`): per-backend
circuit breaker with failure count, opened-at timestamp and configuration. -/
structure Breaker where
  state : CBState
  failures : ℕ
  openedAt : ℚ
  failureThreshold : ℕ
  recoveryTimeout : ℚ
deriving DecidableEq, Repr

/-- Whether a call is let through to the backend or short-circuited. -/
inductive CallGate
  | ShortCircuit
  | Attempt
deriving DecidableEq, Repr

/-- Modelled from the spec (§4.3): in Open, every call is short-circuited
until `now - opened_at >= recovery_timeout`; once the timeout has elapsed
the next call transitions the breaker to HalfOpen before being attempted.
Closed and HalfOpen let the call through. -/
def breakerGate (cb : Breaker) (now : ℚ) : CallGate × Breaker :=
  match cb.state with
  | CBState.Open =>
    if cb.recoveryTimeout ≤ now - cb.openedAt then
      (CallGate.Attempt, { cb with state := CBState.HalfOpen })
    else
      (CallGate.ShortCircuit, cb)
  | _ => (CallGate.Attempt, cb)

/-- Default `recovery_timeout` (seconds), from `docs/configuration.md`. -/
def defaultRecoveryTimeout : ℚ := 30

/-- Default `failure_threshold`, from `docs/configuration.md`. -/
def defaultFailureThreshold : ℕ := 5

/-! ## Load balancer -/

/-- A backend server as seen by the load balancer: its published health
verdict and the state of its circuit breaker. -/
structure Backend where
  health : Health
  breaker : CBState
deriving DecidableEq, Repr

/-- Modelled from the spec (§4.4): a backend is eligible iff its health is
Healthy and its circuit breaker is not Open. -/
def eligibleB (b : Backend) : Bool :=
  decide (b.health = Health.Healthy) && decide (b.breaker ≠ CBState.Open)

/-- An upstream group: ordered backends plus the persistent round-robin
cursor. -/
structure Group where
  backends : List Backend
  cursor : ℕ
deriving DecidableEq, Repr

/-- Eligibility of the backend at index `i` of a backend list (out-of-range
indices are never eligible). -/
def eligAt (bs : List Backend) (i : ℕ) : Bool :=
  match bs[i]? with
  | some b => eligibleB b
  | none => false

/-- Modelled from the spec (§4.4): round-robin scan starting at the cursor.
The cursor advances past every examined slot, including ineligible ones, so
a call that lands on an ineligible backend still moves the cursor.  `ok i`
says whether index `i` may be chosen (health/breaker eligibility, plus the
pipeline's per-request exclusion of already-failed backends).  The fuel
bounds the scan to one full cycle; returns the chosen index (if any) and
the new cursor. -/
def selectScan (n : ℕ) (ok : ℕ → Bool) (cursor : ℕ) : ℕ → Option ℕ × ℕ
  | 0 => (none, cursor)
  | fuel + 1 =>
    if ok (cursor % n) then (some (cursor % n), cursor + 1)
    else selectScan n ok (cursor + 1) fuel

/-- Modelled from the spec (§4.4):
`select(upstream_group) -> BackendServer | NoneAvailable`.  Returns the
selected backend index (or `none` for NoneAvailable) and the group with its
advanced cursor. -/
def selectBackend (g : Group) : Option ℕ × Group :=
  let r := selectScan g.backends.length (eligAt g.backends) g.cursor g.backends.length
  (r.1, { g with cursor := r.2 })

/-! ## Health checker -/

/-- Modelled from the spec (§4.2): per-server probe bookkeeping:
consecutive-success and consecutive-failure counts plus the transition
thresholds N (`failThreshold`) and M (`recoverThreshold`). -/
structure ServerHealth where
  status : Health
  consecSuccess : ℕ
  consecFailures : ℕ
  failThreshold : ℕ
  recoverThreshold : ℕ
deriving DecidableEq, Repr

/-- Modelled from the spec (§4.2): a probe failure increments the
consecutive-failure count and resets the consecutive-success count to 0; a
probe success does the reverse.  Healthy → Unhealthy after N consecutive
failures; Unhealthy → Healthy after M consecutive successes. -/
def recordProbe (s : ServerHealth) (success : Bool) : ServerHealth :=
  if success then
    let cs := s.consecSuccess + 1
    { s with
      consecSuccess := cs, consecFailures := 0,
      status :=
        if s.status = Health.Unhealthy ∧ s.recoverThreshold ≤ cs then
          Health.Healthy
        else s.status }
  else
    let cf := s.consecFailures + 1
    { s with
      consecFailures := cf, consecSuccess := 0,
      status :=
        if s.status = Health.Healthy ∧ s.failThreshold ≤ cf then
          Health.Unhealthy
        else s.status }

/-- Default consecutive-failure threshold N (spec §4.2 / §9: N = 1). -/
def defaultProbeFailThreshold : ℕ := 1

/-- Default consecutive-success threshold M (spec §4.2 / §9: M = 1). -/
def defaultProbeRecoverThreshold : ℕ := 1

/-! ## Request dispatch pipeline -/

/-- JSON values appearing in response bodies. -/
inductive Json
  | str (s : String)
  | num (n : ℕ)
deriving DecidableEq, Repr

/-- An HTTP response: status, headers, and a JSON-object body given as an
ordered list of fields. -/
structure HttpResponse where
  status : ℕ
  headers : List (String × String)
  body : List (String × Json)
deriving DecidableEq, Repr

/-- Rate-limit headers as documented in `docs/rate-limiting.md`
("Response Headers"). -/
def rateLimitHeaders (limit remaining reset : ℕ) : List (String × String) :=
  [("X-Rate-Limit-Limit", Nat.repr limit),
   ("X-Rate-Limit-Remaining", Nat.repr remaining),
   ("X-Rate-Limit-Reset", Nat.repr reset)]

/-- The 429 rejection response, as documented in `docs/rate-limiting.md`
("Error Response"): HTTP 429 with the rate-limit headers (remaining 0) and
a JSON body carrying `error`, `message` and `retry_after` fields. -/
def rejected429 (limit reset retryAfter : ℕ) : HttpResponse :=
  { status := 429
    headers := rateLimitHeaders limit 0 reset ++ [("Content-Type", "application/json")]
    body := [("error", Json.str "Rate limit exceeded"),
             ("message", Json.str "Too many requests. Please try again later."),
             ("retry_after", Json.num retryAfter)] }

/-- Index eligibility used while retrying: health/breaker eligibility and
not among the indices already failed for this logical request. -/
def okIdx (bs : List Backend) (excl : List ℕ) (i : ℕ) : Bool :=
  eligAt bs i && decide (i ∉ excl)

/-- Modelled from the spec (§4.5 steps 3–7): select a backend (excluding the
backends that already failed for this request), attempt the proxied call; on
success return the upstream response; on failure retry, up to `maxRetries`
total attempts; exhaustion yields a 502-class response, no eligible backend
a 503.  `outcomes k` is the success of the k-th proxied attempt.  Returns
the response, the group with its advanced cursor, and the total number of
proxied attempts made. -/
def attemptLoop (outcomes : ℕ → Bool) :
    Group → List ℕ → ℕ → ℕ → HttpResponse × Group × ℕ
  | g, _, k, 0 => ({ status := 502, headers := [], body := [] }, g, k)
  | g, excl, k, fuel + 1 =>
    let r := selectScan g.backends.length (okIdx g.backends excl) g.cursor g.backends.length
    let g2 : Group := { g with cursor := r.2 }
    match r.1 with
    | none => ({ status := 503, headers := [], body := [] }, g2, k)
    | some i =>
      if outcomes k then ({ status := 200, headers := [], body := [] }, g2, k + 1)
      else attemptLoop outcomes g2 (i :: excl) (k + 1) fuel

/-- Inputs of one pipeline run: the location's bucket (`none` when no rate
limit is configured), the current time, the upstream group, the per-attempt
outcome oracle, the retry budget, and the values used to populate the
rate-limit headers and retry-after hint. -/
structure DispatchCtx where
  bucket : Option Bucket
  now : ℚ
  group : Group
  outcomes : ℕ → Bool
  maxRetries : ℕ
  limit : ℕ
  reset : ℕ
  retryAfter : ℕ

/-- Modelled from the spec (§4.5 steps 1–7): if a rate limit is configured,
admit exactly once — on Rejected return the documented 429 immediately with
zero proxied attempts; otherwise (and when no bucket is configured) run the
retry loop, which never touches the bucket.  Returns the response, the
final bucket, the group with its advanced cursor, and the number of proxied
attempts. -/
def dispatch (c : DispatchCtx) : HttpResponse × Option Bucket × Group × ℕ :=
  match c.bucket with
  | none =>
    let r := attemptLoop c.outcomes c.group [] 0 c.maxRetries
    (r.1, none, r.2.1, r.2.2)
  | some b =>
    let a := admitRequest b c.now
    match a.1 with
    | AdmitResult.Rejected =>
      (rejected429 c.limit c.reset c.retryAfter, some a.2, c.group, 0)
    | AdmitResult.Allowed =>
      let r := attemptLoop c.outcomes c.group [] 0 c.maxRetries
      (r.1, some a.2, r.2.1, r.2.2)

/-- Default `max_retries`, from `docs/configuration.md`. -/
def defaultMaxRetries : ℕ := 3

/-! ## NPM install scripts

Embedded from the JavaScript sources in the package: the install script
(`install.js`, shipped alongside `scripts/preinstall.js`), the uninstall
script, and the two requirements-check scripts.  The environment is
abstracted into oracles: `fileExists` for `fs.existsSync`, `cmdOk` for
whether an `execSync` call succeeds. -/

/-- Environment seen by the Node scripts. -/
structure NodeEnv where
  npmConfigGlobal : Option String
  platform : String
  uid : Option ℕ
  fileExists : String → Bool
  cmdOk : String → Bool

/-- A system modification performed by an install script. -/
inductive Effect
  | execCmd (cmd : String)
  | ensureDir (d : String)
  | copyFile (src dst : String)
  | chmodPath (path mode : String)
  | symlinkPath (src dst : String)
  | removePath (path : String)
deriving DecidableEq, Repr

/-- Run `execSync` commands in order inside one `try` block: stop at the
first failing command.  Returns the executed commands (as effects) and
whether all succeeded. -/
def runSeq (e : NodeEnv) : List String → List Effect × Bool
  | [] => ([], true)
  | c :: cs =>
    if e.cmdOk c then
      let r := runSeq e cs
      (Effect.execCmd c :: r.1, r.2)
    else ([Effect.execCmd c], false)

/-- The system directories created by the install script. -/
def installDirs : List String :=
  ["/etc/adq-pingora",
   "/etc/adq-pingora/sites-available",
   "/etc/adq-pingora/sites-enabled",
   "/var/log/adq-pingora",
   "/var/lib/adq-pingora",
   "/etc/letsencrypt"]

/-- The management scripts copied to `/usr/local/bin`. -/
def mgmtScripts : List String := ["adq-ensite", "adq-dissite"]

/-- The configuration files copied by the install script. -/
def installConfigFiles : List (String × String) :=
  [("config/proxy.yaml", "/etc/adq-pingora/proxy.yaml"),
   ("sites-available/example.com", "/etc/adq-pingora/sites-available/example.com"),
   ("sites-available/default", "/etc/adq-pingora/sites-available/default")]

/-- The permission-setting commands run in the install script's inner
`try` block. -/
def permissionCmds : List String :=
  ["chown -R root:root /etc/adq-pingora",
   "chown -R nobody:nogroup /var/log/adq-pingora",
   "chown -R nobody:nogroup /var/lib/adq-pingora",
   "chmod 755 /etc/adq-pingora",
   "chmod 644 /etc/adq-pingora/proxy.yaml",
   "chmod 755 /etc/adq-pingora/sites-available",
   "chmod 755 /etc/adq-pingora/sites-enabled"]

/-- Embedded from the install script (`install.js`): exit immediately with
status 0 for a non-global install (`npm_config_global !== 'true'`); for a
global install, build, create directories, copy binary, scripts and
configuration, enable the default site, set permissions, install the
systemd service on Linux and create the service user — any uncaught error
makes the script exit 1.  Returns the exit status and the list of system
modifications performed. -/
def installJs (e : NodeEnv) : ℕ × List Effect :=
  if e.npmConfigGlobal ≠ some "true" then (0, [])
  else if ¬ e.cmdOk "cargo build --release" then
    (1, [Effect.execCmd "cargo build --release"])
  else
    let buildEff := Effect.execCmd "cargo build --release"
    let dirEffs := installDirs.map Effect.ensureDir
    if ¬ e.fileExists "target/release/adq-pingora" then
      -- `throw new Error('Binary not found after build')` → outer catch → exit 1
      (1, buildEff :: dirEffs)
    else
      let binEffs :=
        [Effect.copyFile "target/release/adq-pingora" "/usr/local/bin/adq-pingora",
         Effect.chmodPath "/usr/local/bin/adq-pingora" "755"]
      let scriptEffs := mgmtScripts.flatMap fun s =>
        if e.fileExists ("scripts/" ++ s) then
          [Effect.copyFile ("scripts/" ++ s) ("/usr/local/bin/" ++ s),
           Effect.chmodPath ("/usr/local/bin/" ++ s) "755"]
        else []
      let configEffs := installConfigFiles.flatMap fun p =>
        if e.fileExists p.1 then [Effect.copyFile p.1 p.2] else []
      let enableEffs :=
        if e.fileExists "/etc/adq-pingora/sites-available/default"
            && ! e.fileExists "/etc/adq-pingora/sites-enabled/default" then
          [Effect.symlinkPath "/etc/adq-pingora/sites-available/default"
             "/etc/adq-pingora/sites-enabled/default"]
        else []
      let permEffs := (runSeq e permissionCmds).1
      let sysdEffs :=
        if e.platform = "linux" && e.fileExists "adq-pingora.service" then
          [Effect.copyFile "adq-pingora.service" "/etc/systemd/system/adq-pingora.service",
           Effect.execCmd "systemctl daemon-reload"]
        else []
      let userEffs :=
        [Effect.execCmd "useradd -r -s /bin/false -d /var/lib/adq-pingora adq-pingora"]
      (0, buildEff :: dirEffs ++ binEffs ++ scriptEffs ++ configEffs
            ++ enableEffs ++ permEffs ++ sysdEffs ++ userEffs)

/-- The binaries removed by the uninstall script. -/
def uninstallBinaries : List String :=
  ["/usr/local/bin/adq-pingora",
   "/usr/local/bin/adq-ensite",
   "/usr/local/bin/adq-dissite"]

/-- Embedded from the uninstall script: exit immediately with status 0 for a
non-global invocation; for a global one, on Linux stop/disable and remove
the systemd service, then remove the installed binaries (configuration and
logs are preserved). -/
def uninstallJs (e : NodeEnv) : ℕ × List Effect :=
  if e.npmConfigGlobal ≠ some "true" then (0, [])
  else
    let svcEffs :=
      if e.platform = "linux" then
        let stopEffs :=
          if e.cmdOk "systemctl stop adq-pingora" then
            [Effect.execCmd "systemctl stop adq-pingora",
             Effect.execCmd "systemctl disable adq-pingora"]
          else [Effect.execCmd "systemctl stop adq-pingora"]
        let rmEffs :=
          if e.fileExists "/etc/systemd/system/adq-pingora.service" then
            [Effect.removePath "/etc/systemd/system/adq-pingora.service",
             Effect.execCmd "systemctl daemon-reload"]
          else []
        stopEffs ++ rmEffs
      else []
    let binEffs := uninstallBinaries.flatMap fun p =>
      if e.fileExists p then [Effect.removePath p] else []
    (0, svcEffs ++ binEffs)

/-- Environment seen by the requirements-check scripts.  `nodeMajor` is the
parsed major component of `process.version`. -/
structure CheckEnv where
  platform : String
  nodeMajor : ℤ
  cmdOk : String → Bool
  uid : Option ℕ
  npmConfigGlobal : Option String

/-- Embedded from `scripts/preinstall.js`: the platform check runs first and
exits 1 on anything but `linux`/`darwin`; then the Node.js major-version
check (< 14 exits 1); then `cargo --version` and `cmake --version` are
executed via `execSync` (a failure of either exits 1); the final root/global
check only logs.  Returns the exit status and the external commands that
were executed. -/
def checkRequirements (e : CheckEnv) : ℕ × List String :=
  if e.platform ≠ "linux" ∧ e.platform ≠ "darwin" then (1, [])
  else if e.nodeMajor < 14 then (1, [])
  else if ¬ e.cmdOk "cargo --version" then (1, ["cargo --version"])
  else if ¬ e.cmdOk "cmake --version" then (1, ["cargo --version", "cmake --version"])
  else (0, ["cargo --version", "cmake --version"])

/-- Embedded from the shorter requirements-check variant: the platform check
runs first and exits 1 on anything but `linux`/`darwin`; then only
`cargo --version` is executed; the root/global check only logs. -/
def checkRequirementsLite (e : CheckEnv) : ℕ × List String :=
  if e.platform ≠ "linux" ∧ e.platform ≠ "darwin" then (1, [])
  else if ¬ e.cmdOk "cargo --version" then (1, ["cargo --version"])
  else (0, ["cargo --version"])

/-! ## Concrete fixtures used by the witnesses -/

/-- A bucket with rate 1, burst 2, full at time 0. -/
def bW : Bucket := { rate := 1, burst := 2, tokens := 2, lastRefill := 0 }

/-- A bucket with rate 1, burst 2, empty at time 0. -/
def bLow : Bucket := { rate := 1, burst := 2, tokens := 0, lastRefill := 0 }

/-- A group of three healthy backends with closed breakers. -/
def gW : Group :=
  { backends :=
      [{ health := Health.Healthy, breaker := CBState.Closed },
       { health := Health.Healthy, breaker := CBState.Closed },
       { health := Health.Healthy, breaker := CBState.Closed }]
    cursor := 0 }

/-- A breaker that opened at time 0 with the default configuration. -/
def cbOpenW : Breaker :=
  { state := CBState.Open, failures := 5, openedAt := 0,
    failureThreshold := 5, recoveryTimeout := 30 }

/-- A healthy server with the default probe thresholds N = M = 1. -/
def shW : ServerHealth :=
  { status := Health.Healthy, consecSuccess := 0, consecFailures := 0,
    failThreshold := 1, recoverThreshold := 1 }

/-- A pipeline context whose bucket is empty (the request gets rejected). -/
def ctxRej : DispatchCtx :=
  { bucket := some bLow, now := 0, group := gW, outcomes := fun _ => true,
    maxRetries := 3, limit := 10, reset := 60, retryAfter := 60 }

/-- A pipeline context whose bucket is full and whose attempts all fail. -/
def ctxOk : DispatchCtx :=
  { bucket := some bW, now := 0, group := gW, outcomes := fun _ => false,
    maxRetries := 3, limit := 10, reset := 60, retryAfter := 60 }

/-- A non-global install environment. -/
def envNonGlobal : NodeEnv :=
  { npmConfigGlobal := none, platform := "linux", uid := none,
    fileExists := fun _ => false, cmdOk := fun _ => false }

/-- An unsupported-platform requirements-check environment. -/
def envWin : CheckEnv :=
  { platform := "win32", nodeMajor := 18, cmdOk := fun _ => true,
    uid := none, npmConfigGlobal := none }

/-- Call times used by the sliding-window witness. -/
def tsW : List ℚ := [0, 0, 1]

/-! ## Basic lemmas about the rate limiter -/

theorem refillTokens_le_burst (b : Bucket) (now : ℚ) : refillTokens b now ≤ b.burst :=
  min_le_left _ _

theorem admitRequest_fields (b : Bucket) (now : ℚ) :
    ((admitRequest b now).2).burst = b.burst ∧
    ((admitRequest b now).2).rate = b.rate ∧
    ((admitRequest b now).2).lastRefill = now ∧
    ((admitRequest b now).2).tokens =
      refillTokens b now - admitCost (admitRequest b now).1 := by
  unfold admitRequest
  by_cases h : 1 ≤ refillTokens b now <;> simp [h, admitCost]

theorem admitRequest_tokens_le_burst (b : Bucket) (now : ℚ) :
    ((admitRequest b now).2).tokens ≤ b.burst := by
  have hle := refillTokens_le_burst b now
  unfold admitRequest
  by_cases h : 1 ≤ refillTokens b now <;> simp [h] <;> linarith

/-! ## Theorems for the claims -/

/-- C1: on each admission call the bucket is first refilled by
`elapsed_seconds * R`, capped at the burst capacity B; if at least one token
is then available the call consumes exactly one token and returns Allowed,
otherwise it returns Rejected leaving the (refilled) token count unchanged,
and in both cases the last-refill timestamp becomes `now`. -/
theorem admit_refill_then_decide (b : Bucket) (now : ℚ) :
    refillTokens b now = min b.burst (b.tokens + (now - b.lastRefill) * b.rate) ∧
    (1 ≤ refillTokens b now →
      admitRequest b now =
        (AdmitResult.Allowed,
         { b with tokens := refillTokens b now - 1, lastRefill := now })) ∧
    (refillTokens b now < 1 →
      admitRequest b now =
        (AdmitResult.Rejected,
         { b with tokens := refillTokens b now, lastRefill := now })) := by
  refine ⟨rfl, fun h => ?_, fun h => ?_⟩
  · unfold admitRequest
    rw [if_pos h]
  · unfold admitRequest
    rw [if_neg (not_le.mpr h)]

/-- Witness for C1: the full bucket admits (consuming one token), the empty
bucket rejects (leaving the refilled count). -/
theorem admit_refill_then_decide_witness :
    admitRequest bW 0 =
      (AdmitResult.Allowed, { bW with tokens := refillTokens bW 0 - 1, lastRefill := 0 }) ∧
    admitRequest bLow 0 =
      (AdmitResult.Rejected, { bLow with tokens := refillTokens bLow 0, lastRefill := 0 }) :=
  ⟨(admit_refill_then_decide bW 0).2.1 (by norm_num [refillTokens, bW]),
   (admit_refill_then_decide bLow 0).2.2 (by norm_num [refillTokens, bLow])⟩

/-- C3: while a breaker is Open, every call is short-circuited (state
unchanged) as long as `now - opened_at < recovery_timeout`; once
`now - opened_at >= recovery_timeout`, the next call transitions the breaker
to HalfOpen and lets the attempt through; the default recovery timeout is
30 seconds. -/
theorem breaker_open_short_circuits (cb : Breaker) (now : ℚ) :
    (cb.state = CBState.Open → now - cb.openedAt < cb.recoveryTimeout →
      breakerGate cb now = (CallGate.ShortCircuit, cb)) ∧
    (cb.state = CBState.Open → cb.recoveryTimeout ≤ now - cb.openedAt →
      breakerGate cb now = (CallGate.Attempt, { cb with state := CBState.HalfOpen })) ∧
    defaultRecoveryTimeout = 30 := by
  refine ⟨fun hs h => ?_, fun hs h => ?_, rfl⟩
  · obtain ⟨st, f, oa, ft, rt⟩ := cb
    cases hs
    simp only [breakerGate]
    rw [if_neg (not_le.mpr h)]
  · obtain ⟨st, f, oa, ft, rt⟩ := cb
    cases hs
    simp only [breakerGate]
    rw [if_pos h]

/-- Witness for C3: the default-configured breaker opened at time 0
short-circuits at time 10 and transitions to HalfOpen at time 30. -/
theorem breaker_open_short_circuits_witness :
    breakerGate cbOpenW 10 = (CallGate.ShortCircuit, cbOpenW) ∧
    breakerGate cbOpenW 30 = (CallGate.Attempt, { cbOpenW with state := CBState.HalfOpen }) :=
  ⟨(breaker_open_short_circuits cbOpenW 10).1 rfl (by norm_num [cbOpenW]),
   (breaker_open_short_circuits cbOpenW 30).2.1 rfl (by norm_num [cbOpenW])⟩

/-- C8: a probe failure increments the consecutive-failure count and resets
the consecutive-success count to 0; a probe success does the reverse; a
Healthy backend transitions to Unhealthy once the count of consecutive
failures reaches the threshold N, whose default is 1. -/
theorem probe_counts_and_transition (s : ServerHealth) :
    (recordProbe s false).consecFailures = s.consecFailures + 1 ∧
    (recordProbe s false).consecSuccess = 0 ∧
    (recordProbe s true).consecSuccess = s.consecSuccess + 1 ∧
    (recordProbe s true).consecFailures = 0 ∧
    (s.status = Health.Healthy → s.failThreshold ≤ s.consecFailures + 1 →
      (recordProbe s false).status = Health.Unhealthy) ∧
    defaultProbeFailThreshold = 1 := by
  refine ⟨?_, ?_, ?_, ?_, fun hs hf => ?_, rfl⟩
  · simp [recordProbe]
  · simp [recordProbe]
  · simp [recordProbe]
  · simp [recordProbe]
  · simp [recordProbe, hs, hf]

/-- Witness for C8: one failed probe flips a Healthy server with the default
threshold to Unhealthy. -/
theorem probe_counts_and_transition_witness :
    (recordProbe shW false).status = Health.Unhealthy :=
  (probe_counts_and_transition shW).2.2.2.2.1 rfl (by decide)

/-- C9: a non-global invocation (`npm_config_global` not equal to the string
`true`) of the NPM install script exits with status 0 and performs no system
modification, and the uninstall script behaves the same way. -/
theorem nonglobal_install_noop (e : NodeEnv) (h : e.npmConfigGlobal ≠ some "true") :
    installJs e = (0, []) ∧ uninstallJs e = (0, []) := by
  constructor
  · unfold installJs
    rw [if_pos h]
  · unfold uninstallJs
    rw [if_pos h]

/-- Witness for C9: a concrete local (non-global) environment. -/
theorem nonglobal_install_noop_witness :
    installJs envNonGlobal = (0, []) ∧ uninstallJs envNonGlobal = (0, []) :=
  nonglobal_install_noop envNonGlobal (by decide)

/-- C10: on a platform other than `linux` or `darwin`, both requirements
check scripts exit with status 1 before running any other check, so no
external command is executed. -/
theorem unsupported_platform_exits (e : CheckEnv)
    (h1 : e.platform ≠ "linux") (h2 : e.platform ≠ "darwin") :
    checkRequirements e = (1, []) ∧ checkRequirementsLite e = (1, []) := by
  constructor
  · unfold checkRequirements
    rw [if_pos ⟨h1, h2⟩]
  · unfold checkRequirementsLite
    rw [if_pos ⟨h1, h2⟩]

/-- Witness for C10: a concrete Windows environment. -/
theorem unsupported_platform_exits_witness :
    checkRequirements envWin = (1, []) ∧ checkRequirementsLite envWin = (1, []) :=
  unsupported_platform_exits envWin (by decide) (by decide)

/-! ## Lemmas about the round-robin scan -/

theorem selectScan_some (n : ℕ) (ok : ℕ → Bool) :
    ∀ (fuel cursor i : ℕ), (selectScan n ok cursor fuel).1 = some i → ok i = true := by
  intro fuel
  induction fuel with
  | zero => intro c i h; simp [selectScan] at h
  | succ f ih =>
    intro c i h
    by_cases hc : ok (c % n) = true
    · simp [selectScan, hc] at h
      rw [← h]; exact hc
    · simp [selectScan, hc] at h
      exact ih (c + 1) i h

theorem selectScan_cursor_ge (n : ℕ) (ok : ℕ → Bool) :
    ∀ (fuel cursor : ℕ), cursor ≤ (selectScan n ok cursor fuel).2 := by
  intro fuel
  induction fuel with
  | zero => intro c; simp [selectScan]
  | succ f ih =>
    intro c
    by_cases hc : ok (c % n) = true <;> simp [selectScan, hc]
    exact le_trans (Nat.le_succ c) (ih (c + 1))

theorem selectScan_cursor_gt (n : ℕ) (ok : ℕ → Bool) (fuel cursor : ℕ)
    (h : 0 < fuel) : cursor < (selectScan n ok cursor fuel).2 := by
  cases fuel with
  | zero => exact absurd h (lt_irrefl 0)
  | succ f =>
    by_cases hc : ok (cursor % n) = true <;> simp [selectScan, hc]
    exact Nat.lt_of_lt_of_le (Nat.lt_succ_self cursor) (selectScan_cursor_ge n ok f (cursor + 1))

theorem selectBackend_all_eligible (bs : List Backend) (c : ℕ) (h3 : bs.length = 3)
    (helig : ∀ j, j < 3 → eligAt bs j = true) :
    selectBackend ⟨bs, c⟩ = (some (c % 3), ⟨bs, c + 1⟩) := by
  have hok : eligAt bs (c % 3) = true := helig _ (Nat.mod_lt _ (by norm_num))
  unfold selectBackend
  simp only
  rw [h3]
  simp [selectScan, hok]

/-- C2: `select` only ever returns an eligible backend (Healthy and breaker
not Open); it advances the group's cursor on every call on a nonempty group;
and over a group of 3 eligible backends, 3 consecutive selections return the
indices `cursor % 3`, `(cursor+1) % 3`, `(cursor+2) % 3` — pairwise
distinct, i.e. each backend exactly once, in rotating order. -/
theorem select_round_robin (g : Group) (i : ℕ) (hne : g.backends ≠ []) :
    ((selectBackend g).1 = some i → eligAt g.backends i = true) ∧
    g.cursor < (selectBackend g).2.cursor ∧
    (g.backends.length = 3 → (∀ j, j < 3 → eligAt g.backends j = true) →
      (selectBackend g).1 = some (g.cursor % 3) ∧
      (selectBackend (selectBackend g).2).1 = some ((g.cursor + 1) % 3) ∧
      (selectBackend (selectBackend (selectBackend g).2).2).1 =
        some ((g.cursor + 2) % 3) ∧
      g.cursor % 3 ≠ (g.cursor + 1) % 3 ∧
      (g.cursor + 1) % 3 ≠ (g.cursor + 2) % 3 ∧
      g.cursor % 3 ≠ (g.cursor + 2) % 3) := by
  refine ⟨fun h => ?_, ?_, fun h3 he => ?_⟩
  · unfold selectBackend at h
    exact selectScan_some _ _ _ _ _ h
  · have hpos : 0 < g.backends.length := List.length_pos.mpr hne
    unfold selectBackend
    exact selectScan_cursor_gt _ _ _ _ hpos
  · obtain ⟨bs, c⟩ := g
    have s1 := selectBackend_all_eligible bs c h3 he
    have s2 := selectBackend_all_eligible bs (c + 1) h3 he
    have s3 := selectBackend_all_eligible bs (c + 1 + 1) h3 he
    refine ⟨?_, ?_, ?_, by omega, by omega, by omega⟩
    · simp [s1]
    · simp [s1, s2]
    · simp [s1, s2, s3]

/-- Witness for C2: the concrete three-backend group at cursor 0. -/
theorem select_round_robin_witness :
    gW.cursor < (selectBackend gW).2.cursor ∧
    (selectBackend gW).1 = some (gW.cursor % 3) :=
  ⟨(select_round_robin gW 0 (by decide)).2.1,
   ((select_round_robin gW 0 (by decide)).2.2 (by decide) (by decide)).1⟩

/-! ## Run invariants of the bucket -/

theorem admitRun_tokens_le (ts : List ℚ) :
    ∀ b : Bucket, b.tokens ≤ b.burst → (admitRun b ts).tokens ≤ b.burst := by
  induction ts with
  | nil => intro b h; simpa [admitRun] using h
  | cons t ts ih =>
    intro b h
    have h2 := admitRequest_tokens_le_burst b t
    have hb : ((admitRequest b t).2).burst = b.burst := (admitRequest_fields b t).1
    have h3 := ih (admitRequest b t).2 (by rw [hb]; exact h2)
    rw [hb] at h3
    simpa [admitRun] using h3

/-- C4: over every sequence of admission calls the token count never exceeds
the burst capacity B; the token count is never negative after a successful
admission; and every Allowed outcome consumes exactly one token from the
refilled count. -/
theorem bucket_invariants (b : Bucket) (now : ℚ) (ts : List ℚ)
    (h : b.tokens ≤ b.burst) :
    (admitRun b ts).tokens ≤ b.burst ∧
    ((admitRequest b now).1 = AdmitResult.Allowed → 0 ≤ ((admitRequest b now).2).tokens) ∧
    ((admitRequest b now).1 = AdmitResult.Allowed →
      ((admitRequest b now).2).tokens = refillTokens b now - 1) := by
  refine ⟨admitRun_tokens_le ts b h, fun ha => ?_, fun ha => ?_⟩
  · by_cases hc : 1 ≤ refillTokens b now
    · unfold admitRequest
      rw [if_pos hc]
      dsimp only
      linarith
    · unfold admitRequest at ha
      rw [if_neg hc] at ha
      exact absurd ha (by simp)
  · by_cases hc : 1 ≤ refillTokens b now
    · unfold admitRequest
      rw [if_pos hc]
    · unfold admitRequest at ha
      rw [if_neg hc] at ha
      exact absurd ha (by simp)

/-- Witness for C4: the concrete full bucket over two calls. -/
theorem bucket_invariants_witness :
    (admitRun bW [0, 1]).tokens ≤ bW.burst ∧ 0 ≤ ((admitRequest bW 0).2).tokens :=
  ⟨(bucket_invariants bW 0 [0, 1] (by norm_num [bW])).1,
   (bucket_invariants bW 0 [0, 1] (by norm_num [bW])).2.1
     (by norm_num [admitRequest, refillTokens, bW])⟩

/-! ## Lemmas about the retry loop -/

theorem attemptLoop_count_le (o : ℕ → Bool) :
    ∀ (fuel : ℕ) (g : Group) (excl : List ℕ) (k : ℕ),
      (attemptLoop o g excl k fuel).2.2 ≤ k + fuel := by
  intro fuel
  induction fuel with
  | zero => intro g excl k; simp [attemptLoop]
  | succ f ih =>
    intro g excl k
    rw [attemptLoop]
    cases hr : (selectScan g.backends.length (okIdx g.backends excl) g.cursor
        g.backends.length).1 with
    | none => simp [hr]
    | some i =>
      by_cases ho : o k = true
      · simp [hr, ho]
      · simp only [hr, ho]
        simp only [Bool.false_eq_true, if_false]
        exact le_trans (ih _ _ (k + 1)) (by omega)

theorem okIdx_not_excluded (bs : List Backend) (excl : List ℕ) (i : ℕ)
    (h : okIdx bs excl i = true) : i ∉ excl := by
  unfold okIdx at h
  simp only [Bool.and_eq_true, decide_eq_true_eq] at h
  exact h.2

/-- C6: when a bucket is configured, the pipeline's final bucket equals the
bucket after exactly one admission — the retry loop never touches it, so no
retry consumes an additional token; the number of proxied attempts is
bounded by `max_retries` (default 3); and the retry selection never returns
a backend already excluded as failed. -/
theorem retry_frame (c : DispatchCtx) (b : Bucket) (hb : c.bucket = some b) :
    (dispatch c).2.1 = some ((admitRequest b c.now).2) ∧
    (dispatch c).2.2.2 ≤ c.maxRetries ∧
    defaultMaxRetries = 3 ∧
    (∀ (g : Group) (excl : List ℕ) (cursor fuel i : ℕ),
      (selectScan g.backends.length (okIdx g.backends excl) cursor fuel).1 = some i →
      i ∉ excl) := by
  refine ⟨?_, ?_, rfl,
    fun g excl cursor fuel i h => okIdx_not_excluded _ _ _ (selectScan_some _ _ _ _ _ h)⟩
  · unfold dispatch
    rw [hb]
    cases ha : (admitRequest b c.now).1 <;> simp [ha]
  · unfold dispatch
    rw [hb]
    cases ha : (admitRequest b c.now).1 <;> simp [ha]
    have := attemptLoop_count_le c.outcomes c.maxRetries c.group [] 0
    simpa using this

/-- Witness for C6: the concrete always-failing pipeline context. -/
theorem retry_frame_witness :
    (dispatch ctxOk).2.1 = some ((admitRequest bW 0).2) ∧
    (dispatch ctxOk).2.2.2 ≤ ctxOk.maxRetries :=
  ⟨(retry_frame ctxOk bW rfl).1, (retry_frame ctxOk bW rfl).2.1⟩

/-- Counterexample for C7 as stated: at a concrete rejected request the
pipeline does return 429 with zero proxied attempts, but the JSON body's
fields are `error`, `message`, `retry_after` — not exactly
`{"error": ..., "retry_after": ...}`. -/
theorem rejected_429_counterexample :
    (dispatch ctxRej).1.status = 429 ∧
    (dispatch ctxRej).2.2.2 = 0 ∧
    (dispatch ctxRej).1.body.map Prod.fst = ["error", "message", "retry_after"] ∧
    (dispatch ctxRej).1.body.map Prod.fst ≠ ["error", "retry_after"] := by
  have hrejc : (admitRequest bLow 0).1 = AdmitResult.Rejected := by
    norm_num [admitRequest, refillTokens, bLow, min_def]
  have hd : dispatch ctxRej = (rejected429 10 60 60, some (admitRequest bLow 0).2, gW, 0) := by
    unfold dispatch
    simp only [ctxRej]
    rw [hrejc]
  rw [hd]
  refine ⟨rfl, rfl, rfl, by decide⟩

/-- C7 (amended): a request rejected by the rate limiter gets the HTTP 429
response immediately, with zero proxied attempts, carrying the rate-limit
headers and the JSON body
`{"error": "Rate limit exceeded", "message": "Too many requests. Please try
again later.", "retry_after": <seconds>}` — the documented body also
carries a `message` field. -/
theorem rejected_429_immediate (c : DispatchCtx) (b : Bucket)
    (hb : c.bucket = some b)
    (hrej : (admitRequest b c.now).1 = AdmitResult.Rejected) :
    (dispatch c).1 = rejected429 c.limit c.reset c.retryAfter ∧
    (dispatch c).2.2.2 = 0 ∧
    (dispatch c).1.status = 429 ∧
    (dispatch c).1.headers =
      rateLimitHeaders c.limit 0 c.reset ++ [("Content-Type", "application/json")] ∧
    (dispatch c).1.body =
      [("error", Json.str "Rate limit exceeded"),
       ("message", Json.str "Too many requests. Please try again later."),
       ("retry_after", Json.num c.retryAfter)] := by
  have hd : dispatch c =
      (rejected429 c.limit c.reset c.retryAfter, some (admitRequest b c.now).2, c.group, 0) := by
    unfold dispatch
    rw [hb]
    dsimp only
    rw [hrej]
  rw [hd]
  exact ⟨rfl, rfl, rfl, rfl, rfl⟩

/-- Witness for C7's amended theorem: the concrete rejected request. -/
theorem rejected_429_immediate_witness :
    (dispatch ctxRej).1 = rejected429 ctxRej.limit ctxRej.reset ctxRej.retryAfter ∧
    (dispatch ctxRej).2.2.2 = 0 :=
  ⟨(rejected_429_immediate ctxRej bLow rfl
      (by norm_num [admitRequest, refillTokens, bLow, ctxRej, min_def])).1,
   (rejected_429_immediate ctxRej bLow rfl
      (by norm_num [admitRequest, refillTokens, bLow, ctxRej, min_def])).2.1⟩

/-! ## The sliding-window admission bound -/

theorem admitTrace_cons (b : Bucket) (t : ℚ) (ts : List ℚ) :
    admitTrace b (t :: ts) =
      (t, (admitRequest b t).1) :: admitTrace ((admitRequest b t).2) ts := rfl

theorem tokens_nonneg_step (b : Bucket) (now : ℚ) (h0 : 0 ≤ b.tokens)
    (hl : b.lastRefill ≤ now) (hr : 0 ≤ b.rate) (hb : 0 ≤ b.burst) :
    0 ≤ ((admitRequest b now).2).tokens := by
  by_cases hc : 1 ≤ refillTokens b now
  · unfold admitRequest
    rw [if_pos hc]
    dsimp only
    linarith
  · unfold admitRequest
    rw [if_neg hc]
    dsimp only
    unfold refillTokens
    have hmul : 0 ≤ (now - b.lastRefill) * b.rate := mul_nonneg (by linarith) hr
    exact le_min hb (by linarith)

theorem avail_step (b : Bucket) (now u : ℚ) :
    avail ((admitRequest b now).2) u ≤ avail b u - admitCost (admitRequest b now).1 := by
  obtain ⟨-, hr, hl, ht⟩ := admitRequest_fields b now
  unfold avail
  rw [ht, hl, hr]
  have h1 : refillTokens b now ≤ b.tokens + (now - b.lastRefill) * b.rate := min_le_right _ _
  nlinarith [h1]

theorem upToCount_zero (hi : ℚ) : ∀ (ts : List ℚ) (b : Bucket),
    (∀ t ∈ ts, hi < t) → upToCount hi (admitTrace b ts) = 0 := by
  intro ts
  induction ts with
  | nil => intro b _; rfl
  | cons t ts ih =>
    intro b h
    have hhead : ¬ (t ≤ hi) := not_le.mpr (h t (by simp))
    rw [admitTrace_cons]
    unfold upToCount
    rw [List.countP_cons]
    simp only [hhead, decide_eq_true_eq, Bool.and_eq_true, decide_eq_false_iff_not]
    have := ih ((admitRequest b t).2) (fun u hu => h u (by simp [hu]))
    unfold upToCount at this
    simp [this, hhead]

theorem avail_nonneg (b : Bucket) (hi : ℚ) (h0 : 0 ≤ b.tokens) (hr : 0 ≤ b.rate)
    (hhi : b.lastRefill ≤ hi) : 0 ≤ avail b hi := by
  unfold avail
  have : 0 ≤ b.rate * (hi - b.lastRefill) := mul_nonneg hr (by linarith)
  linarith

theorem upToCount_le_avail : ∀ (ts : List ℚ) (b : Bucket) (hi : ℚ),
    List.Pairwise (· ≤ ·) ts → (∀ t ∈ ts, b.lastRefill ≤ t) →
    0 ≤ b.tokens → 0 ≤ b.rate → 0 ≤ b.burst → b.lastRefill ≤ hi →
    (upToCount hi (admitTrace b ts) : ℚ) ≤ avail b hi := by
  intro ts
  induction ts with
  | nil =>
    intro b hi _ _ h0 hr _ hhi
    simpa [admitTrace, upToCount] using avail_nonneg b hi h0 hr hhi
  | cons t ts ih =>
    intro b hi hp hmem h0 hr hb hhi
    obtain ⟨hpt, hpp⟩ := List.pairwise_cons.mp hp
    have hlt : b.lastRefill ≤ t := hmem t (by simp)
    have hfl := admitRequest_fields b t
    by_cases hth : t ≤ hi
    · have h2 : (upToCount hi (admitTrace ((admitRequest b t).2) ts) : ℚ) ≤
          avail ((admitRequest b t).2) hi := by
        apply ih ((admitRequest b t).2) hi hpp
        · intro u hu; rw [hfl.2.2.1]; exact hpt u hu
        · exact tokens_nonneg_step b t h0 hlt hr hb
        · rw [hfl.2.1]; exact hr
        · rw [hfl.1]; exact hb
        · rw [hfl.2.2.1]; exact hth
      have h3 := avail_step b t hi
      rw [admitTrace_cons]
      unfold upToCount
      rw [List.countP_cons]
      unfold upToCount at h2
      cases hres : (admitRequest b t).1 with
      | Allowed =>
        rw [show admitCost (admitRequest b t).1 = 1 from by rw [hres]; rfl] at h3
        simp [hres, hth]
        linarith
      | Rejected =>
        rw [show admitCost (admitRequest b t).1 = 0 from by rw [hres]; rfl] at h3
        simp [hres]
        linarith
    · have hz : upToCount hi (admitTrace b (t :: ts)) = 0 := by
        apply upToCount_zero hi (t :: ts) b
        intro u hu
        rcases List.mem_cons.mp hu with h | h
        · rw [h]; exact not_le.mp hth
        · exact lt_of_lt_of_le (not_le.mp hth) (hpt u h)
      rw [hz]
      simpa using avail_nonneg b hi h0 hr hhi

theorem window_eq_upToCount (s T : ℚ) : ∀ (ts : List ℚ) (b : Bucket),
    (∀ u ∈ ts, s ≤ u) →
    windowCount s T (admitTrace b ts) = upToCount (s + T) (admitTrace b ts) := by
  intro ts
  induction ts with
  | nil => intro b _; rfl
  | cons t ts ih =>
    intro b h
    have hs : s ≤ t := h t (by simp)
    rw [admitTrace_cons]
    unfold windowCount upToCount
    rw [List.countP_cons, List.countP_cons]
    have htail := ih ((admitRequest b t).2) (fun u hu => h u (by simp [hu]))
    unfold windowCount upToCount at htail
    rw [htail]
    simp [hs]

theorem windowCount_zero (s T : ℚ) : ∀ (ts : List ℚ) (b : Bucket),
    (∀ t ∈ ts, s + T < t) → windowCount s T (admitTrace b ts) = 0 := by
  intro ts
  induction ts with
  | nil => intro b _; rfl
  | cons t ts ih =>
    intro b h
    have hhead : ¬ (t ≤ s + T) := not_le.mpr (h t (by simp))
    rw [admitTrace_cons]
    unfold windowCount
    rw [List.countP_cons]
    have := ih ((admitRequest b t).2) (fun u hu => h u (by simp [hu]))
    unfold windowCount at this
    simp [this, hhead]

theorem windowCount_le : ∀ (ts : List ℚ) (b : Bucket) (s T : ℚ),
    List.Pairwise (· ≤ ·) ts → (∀ t ∈ ts, b.lastRefill ≤ t) →
    0 ≤ b.tokens → b.tokens ≤ b.burst → 0 ≤ b.rate → 0 ≤ T →
    (windowCount s T (admitTrace b ts) : ℚ) ≤ b.burst + b.rate * T := by
  intro ts
  induction ts with
  | nil =>
    intro b s T _ _ h0 hB hr hT
    have : 0 ≤ b.rate * T := mul_nonneg hr hT
    simp only [admitTrace, windowCount, List.countP_nil, Nat.cast_zero]
    linarith
  | cons t ts ih =>
    intro b s T hp hmem h0 hB hr hT
    obtain ⟨hpt, hpp⟩ := List.pairwise_cons.mp hp
    have hlt : b.lastRefill ≤ t := hmem t (by simp)
    have hfl := admitRequest_fields b t
    have hb0 : 0 ≤ b.burst := le_trans h0 hB
    by_cases h1 : s ≤ t
    · by_cases h2 : t ≤ s + T
      · -- the head call lies inside the window
        have hwin : windowCount s T (admitTrace ((admitRequest b t).2) ts) =
            upToCount (s + T) (admitTrace ((admitRequest b t).2) ts) :=
          window_eq_upToCount s T ts ((admitRequest b t).2)
            (fun u hu => le_trans h1 (hpt u hu))
        have hupto : (upToCount (s + T) (admitTrace ((admitRequest b t).2) ts) : ℚ) ≤
            avail ((admitRequest b t).2) (s + T) := by
          apply upToCount_le_avail ts ((admitRequest b t).2) (s + T) hpp
          · intro u hu; rw [hfl.2.2.1]; exact hpt u hu
          · exact tokens_nonneg_step b t h0 hlt hr hb0
          · rw [hfl.2.1]; exact hr
          · rw [hfl.1]; exact hb0
          · rw [hfl.2.2.1]; exact h2
        have havail : avail ((admitRequest b t).2) (s + T) ≤
            b.burst - admitCost (admitRequest b t).1 + b.rate * T := by
          unfold avail
          rw [hfl.2.2.1, hfl.2.1, hfl.2.2.2]
          have hrb := refillTokens_le_burst b t
          have hmul : b.rate * (s + T - t) ≤ b.rate * T :=
            mul_le_mul_of_nonneg_left (by linarith) hr
          linarith
        rw [admitTrace_cons]
        unfold windowCount
        rw [List.countP_cons]
        unfold windowCount at hwin
        unfold upToCount at hwin hupto
        rw [hwin]
        cases hres : (admitRequest b t).1 with
        | Allowed =>
          rw [show admitCost (admitRequest b t).1 = 1 from by rw [hres]; rfl] at havail
          simp [hres, h1, h2]
          linarith
        | Rejected =>
          rw [show admitCost (admitRequest b t).1 = 0 from by rw [hres]; rfl] at havail
          simp [hres]
          linarith
      · -- the head call is beyond the window: all later calls are too
        have hz : windowCount s T (admitTrace b (t :: ts)) = 0 := by
          apply windowCount_zero s T (t :: ts) b
          intro u hu
          rcases List.mem_cons.mp hu with h | h
          · rw [h]; exact not_le.mp h2
          · exact lt_of_lt_of_le (not_le.mp h2) (hpt u h)
        rw [hz]
        have : 0 ≤ b.rate * T := mul_nonneg hr hT
        push_cast
        linarith
    · -- the head call precedes the window and does not count
      rw [admitTrace_cons]
      unfold windowCount
      rw [List.countP_cons]
      simp only [h1, decide_False, Bool.false_and, if_false, Nat.add_zero]
      have htail : (windowCount s T (admitTrace ((admitRequest b t).2) ts) : ℚ) ≤
          ((admitRequest b t).2).burst + ((admitRequest b t).2).rate * T := by
        apply ih ((admitRequest b t).2) s T hpp
        · intro u hu; rw [hfl.2.2.1]; exact hpt u hu
        · exact tokens_nonneg_step b t h0 hlt hr hb0
        · rw [hfl.1]; exact admitRequest_tokens_le_burst b t
        · rw [hfl.2.1]; exact hr
        · exact hT
      rw [hfl.1, hfl.2.1] at htail
      unfold windowCount at htail
      exact htail

/-- C5: for every bucket with rate R and integer burst capacity B and every
nondecreasing sequence of admission calls, the number of Allowed outcomes
whose call time lies in any sliding window `[s, s + T]` never exceeds
`floor(R * T) + B`. -/
theorem sliding_window_bound (b : Bucket) (B : ℕ) (ts : List ℚ) (s T : ℚ)
    (hsort : List.Pairwise (· ≤ ·) ts)
    (hafter : ∀ t ∈ ts, b.lastRefill ≤ t)
    (h0 : 0 ≤ b.tokens) (hcap : b.tokens ≤ b.burst)
    (hr : 0 ≤ b.rate) (hT : 0 ≤ T) (hB : b.burst = (B : ℚ)) :
    windowCount s T (admitTrace b ts) ≤ Nat.floor (b.rate * T) + B := by
  have h := windowCount_le ts b s T hsort hafter h0 hcap hr hT
  rw [hB] at h
  have h2 : (windowCount s T (admitTrace b ts) : ℚ) ≤ b.rate * T + (B : ℚ) := by
    linarith
  have h3 : windowCount s T (admitTrace b ts) ≤ Nat.floor (b.rate * T + (B : ℚ)) :=
    Nat.le_floor h2
  rwa [Nat.floor_add_nat (mul_nonneg hr hT)] at h3

/-- Witness for C5: the concrete rate-1 burst-2 bucket over three calls in
the window `[0, 1]`. -/
theorem sliding_window_bound_witness :
    windowCount 0 1 (admitTrace bW tsW) ≤ Nat.floor (bW.rate * 1) + 2 :=
  sliding_window_bound bW 2 tsW 0 1 (by norm_num [tsW]) (by norm_num [tsW, bW])
    (by norm_num [bW]) (by norm_num [bW]) (by norm_num [bW]) (by norm_num)
    (by norm_num [bW])

end AdqPingora

